import Mathlib

/-!
Verification of pudnax/web-shade-rs against its specification.

The Rust sources are shallowly embedded:
* `src/camera.rs` over a three-component real vector type `Vec3`
  (f32 arithmetic is idealised as real arithmetic; `ultraviolet`'s
  `normalized` divides by the magnitude, which we mirror with Lean's
  division convention, noting the genuinely degenerate inputs in each
  theorem's hypotheses);
* `src/model.rs` over rational coordinates (the loader only moves float
  data around, it never computes with it), with the effects of
  `tobj::load_obj` and `texture::Texture::load` passed in as explicit
  inputs, GPU handles as opaque naturals, and a Rust panic modelled as a
  distinguished outcome, kept separate from returned `Result` errors;
* the orchestrator `State` of `src/main.rs` with all of its fields,
  opaque GPU handles as naturals, and `render`'s interaction with the
  swap chain passed in as an explicit acquisition result.

Values of the external `ultraviolet` library that the claims never
compute with (`Rotor3`, `Bivec3`) are kept symbolic as the arguments the
source passes to their constructors.
-/

namespace WebShade

/-! ## Vectors (`ultraviolet::Vec3`, idealised over ℝ) -/

@[ext]
structure Vec3 where
  x : ℝ
  y : ℝ
  z : ℝ

namespace Vec3

instance : Zero Vec3 := ⟨⟨0, 0, 0⟩⟩

instance : Add Vec3 := ⟨fun a b => ⟨a.x + b.x, a.y + b.y, a.z + b.z⟩⟩

instance : Neg Vec3 := ⟨fun a => ⟨-a.x, -a.y, -a.z⟩⟩

instance : Sub Vec3 := ⟨fun a b => ⟨a.x - b.x, a.y - b.y, a.z - b.z⟩⟩

instance : SMul ℝ Vec3 := ⟨fun k v => ⟨k * v.x, k * v.y, k * v.z⟩⟩

@[simp] theorem zero_x : (0 : Vec3).x = 0 := rfl

@[simp] theorem zero_y : (0 : Vec3).y = 0 := rfl

@[simp] theorem zero_z : (0 : Vec3).z = 0 := rfl

@[simp] theorem add_x (a b : Vec3) : (a + b).x = a.x + b.x := rfl

@[simp] theorem add_y (a b : Vec3) : (a + b).y = a.y + b.y := rfl

@[simp] theorem add_z (a b : Vec3) : (a + b).z = a.z + b.z := rfl

@[simp] theorem neg_x (a : Vec3) : (-a).x = -a.x := rfl

@[simp] theorem neg_y (a : Vec3) : (-a).y = -a.y := rfl

@[simp] theorem neg_z (a : Vec3) : (-a).z = -a.z := rfl

@[simp] theorem sub_x (a b : Vec3) : (a - b).x = a.x - b.x := rfl

@[simp] theorem sub_y (a b : Vec3) : (a - b).y = a.y - b.y := rfl

@[simp] theorem sub_z (a b : Vec3) : (a - b).z = a.z - b.z := rfl

@[simp] theorem smul_x (k : ℝ) (v : Vec3) : (k • v).x = k * v.x := rfl

@[simp] theorem smul_y (k : ℝ) (v : Vec3) : (k • v).y = k * v.y := rfl

@[simp] theorem smul_z (k : ℝ) (v : Vec3) : (k • v).z = k * v.z := rfl

instance : AddCommGroup Vec3 where
  add_assoc a b c := by ext <;> simp <;> ring
  zero_add a := by ext <;> simp
  add_zero a := by ext <;> simp
  add_comm a b := by ext <;> simp <;> ring
  neg_add_cancel a := by ext <;> simp
  sub_eq_add_neg a b := by ext <;> simp <;> ring
  nsmul := nsmulRec
  zsmul := zsmulRec

instance : Module ℝ Vec3 where
  one_smul v := by ext <;> simp
  mul_smul a b v := by ext <;> simp <;> ring
  smul_zero a := by ext <;> simp
  smul_add a u v := by ext <;> simp <;> ring
  add_smul a b v := by ext <;> simp <;> ring
  zero_smul v := by ext <;> simp

/-- `Vec3::dot`. -/
def dot (a b : Vec3) : ℝ := a.x * b.x + a.y * b.y + a.z * b.z

/-- `Vec3::cross`. -/
def cross (a b : Vec3) : Vec3 :=
  ⟨a.y * b.z - a.z * b.y, a.z * b.x - a.x * b.z, a.x * b.y - a.y * b.x⟩

/-- `Vec3::mag`: the Euclidean magnitude. -/
noncomputable def mag (v : Vec3) : ℝ := Real.sqrt (dot v v)

/-- `Vec3::normalized`: the vector divided by its magnitude. -/
noncomputable def normalized (v : Vec3) : Vec3 := (mag v)⁻¹ • v

theorem dot_self_nonneg (v : Vec3) : 0 ≤ dot v v := by
  unfold dot; nlinarith [sq_nonneg v.x, sq_nonneg v.y, sq_nonneg v.z]

theorem dot_self_eq_zero {v : Vec3} : dot v v = 0 ↔ v = 0 := by
  constructor
  · intro h
    unfold dot at h
    ext <;> simp <;> nlinarith [sq_nonneg v.x, sq_nonneg v.y, sq_nonneg v.z]
  · intro h; subst h; simp [dot]

theorem mag_nonneg (v : Vec3) : 0 ≤ mag v := Real.sqrt_nonneg _

theorem mag_eq_zero {v : Vec3} : mag v = 0 ↔ v = 0 := by
  unfold mag
  rw [Real.sqrt_eq_zero (dot_self_nonneg v)]
  exact dot_self_eq_zero

theorem mag_pos {v : Vec3} (h : v ≠ 0) : 0 < mag v :=
  lt_of_le_of_ne (mag_nonneg v) fun e => h (mag_eq_zero.mp e.symm)

theorem mag_smul (k : ℝ) (v : Vec3) : mag (k • v) = |k| * mag v := by
  unfold mag
  have h : dot (k • v) (k • v) = k ^ 2 * dot v v := by
    simp [dot]; ring
  rw [h, Real.sqrt_mul (sq_nonneg k), Real.sqrt_sq_eq_abs]

theorem mag_normalized {v : Vec3} (h : v ≠ 0) : mag (normalized v) = 1 := by
  unfold normalized
  rw [mag_smul, abs_inv, abs_of_pos (mag_pos h), inv_mul_cancel₀ (mag_pos h).ne']

@[simp] theorem normalized_zero : normalized (0 : Vec3) = 0 := by
  simp [normalized]

theorem dot_self_pos {v : Vec3} (h : v ≠ 0) : 0 < dot v v :=
  lt_of_le_of_ne (dot_self_nonneg v) fun e => h (dot_self_eq_zero.mp e.symm)

theorem mag_sq (v : Vec3) : mag v ^ 2 = dot v v := Real.sq_sqrt (dot_self_nonneg v)

theorem dot_cross_self (a b : Vec3) : dot a (cross a b) = 0 := by
  simp [dot, cross]; ring

theorem cross_smul_left (k : ℝ) (a b : Vec3) : cross (k • a) b = k • cross a b := by
  ext <;> simp [cross] <;> ring

theorem dot_smul_right (k : ℝ) (a b : Vec3) : dot a (k • b) = k * dot a b := by
  simp [dot]; ring

theorem dot_normalized_cross (f u : Vec3) : dot f (cross (normalized f) u) = 0 := by
  unfold normalized
  rw [cross_smul_left, dot_smul_right, dot_cross_self, mul_zero]

theorem sub_smul_normalized (f : Vec3) (s : ℝ) :
    f - s • f.normalized = (1 - s * (mag f)⁻¹) • f := by
  unfold normalized
  rw [smul_smul, sub_smul, one_smul]

theorem add_smul_normalized (f : Vec3) (s : ℝ) :
    f + s • f.normalized = (1 + s * (mag f)⁻¹) • f := by
  unfold normalized
  rw [smul_smul, add_smul, one_smul]

theorem smul_eq_zero_iff {k : ℝ} {v : Vec3} : k • v = 0 ↔ k = 0 ∨ v = 0 := by
  constructor
  · intro h
    rcases eq_or_ne k 0 with hk | hk
    · exact Or.inl hk
    · refine Or.inr ?_
      have hx := congrArg Vec3.x h
      have hy := congrArg Vec3.y h
      have hz := congrArg Vec3.z h
      simp at hx hy hz
      ext <;> simp <;> tauto
  · rintro (h | h) <;> subst h <;> ext <;> simp

end Vec3

/-! ## External rotation values (`ultraviolet::Rotor3`, `ultraviolet::Bivec3`)

The source only ever builds them and hands the result to the GPU, so we
keep the constructor arguments symbolically. -/

inductive Bivec3
  | unit_xy
  | from_normalized_axis (axis : Vec3)

/-- `Rotor3::from_angle_plane`, kept as its arguments: the rotation angle
(radians) and the rotation plane. -/
structure Rotor3 where
  angle : ℝ
  plane : Bivec3

def Rotor3.from_angle_plane (angle : ℝ) (plane : Bivec3) : Rotor3 := ⟨angle, plane⟩

/-! ## `src/camera.rs` -/

structure Camera where
  eye : Vec3
  target : Vec3
  up : Vec3
  aspect : ℝ
  fovy : ℝ
  znear : ℝ
  zfar : ℝ

structure CameraController where
  speed : ℝ
  is_up_pressed : Bool
  is_down_pressed : Bool
  is_forward_pressed : Bool
  is_backward_pressed : Bool
  is_left_pressed : Bool
  is_right_pressed : Bool

def CameraController.new (speed : ℝ) : CameraController :=
  ⟨speed, false, false, false, false, false, false⟩

/-- `winit::event::ElementState`. -/
inductive ElementState
  | Pressed
  | Released
deriving DecidableEq

/-- The virtual key codes the application inspects, with `Other` standing
for every remaining code of `winit`'s enumeration. -/
inductive VirtualKeyCode
  | Space
  | LShift
  | W
  | Up
  | A
  | Left
  | S
  | Down
  | D
  | Right
  | Escape
  | Other
deriving DecidableEq

/-- The window events the application inspects, with `OtherEvent` standing
for every remaining variant of `winit::event::WindowEvent`. -/
inductive WindowEvent
  | KeyboardInput (state : ElementState) (virtual_keycode : Option VirtualKeyCode)
  | CloseRequested
  | Resized (size : ℕ × ℕ)
  | ScaleFactorChanged (new_inner_size : ℕ × ℕ)
  | Moved (pos : ℤ × ℤ)
  | OtherEvent

/-- `CameraController::process_events` (camera.rs:52-94); `&mut self` is
returned as the first component. -/
def CameraController.process_events (self : CameraController) (event : WindowEvent) :
    CameraController × Bool :=
  match event with
  | .KeyboardInput state (some keycode) =>
    let is_pressed := state == ElementState.Pressed
    match keycode with
    | .Space => ({ self with is_up_pressed := is_pressed }, true)
    | .LShift => ({ self with is_down_pressed := is_pressed }, true)
    | .W | .Up => ({ self with is_forward_pressed := is_pressed }, true)
    | .A | .Left => ({ self with is_left_pressed := is_pressed }, true)
    | .S | .Down => ({ self with is_backward_pressed := is_pressed }, true)
    | .D | .Right => ({ self with is_right_pressed := is_pressed }, true)
    | _ => (self, false)
  | _ => (self, false)

/-- `CameraController::update_camera` (camera.rs:96-119); both `&mut`
arguments are returned. The `_forward_mag` recomputed after the
forward/backward branches is discarded by the source (camera.rs:111), so
the strafe branches reuse the entry-time `forward_mag`. -/
noncomputable def CameraController.update_camera (self : CameraController)
    (camera : Camera) : CameraController × Camera :=
  let forward := camera.target - camera.eye
  let forward_norm := forward.normalized
  let forward_mag := forward.mag
  let camera :=
    if self.is_forward_pressed = true ∧ forward_mag > self.speed then
      { camera with eye := camera.eye + self.speed • forward_norm }
    else camera
  let camera :=
    if self.is_backward_pressed = true then
      { camera with eye := camera.eye - self.speed • forward_norm }
    else camera
  let right := forward_norm.cross camera.up
  let forward2 := camera.target - camera.eye
  let camera :=
    if self.is_right_pressed = true then
      { camera with eye := camera.target - forward_mag • (forward2 + self.speed • right).normalized }
    else camera
  let camera :=
    if self.is_left_pressed = true then
      { camera with eye := camera.target - forward_mag • (forward2 - self.speed • right).normalized }
    else camera
  (self, camera)

/-! ## The instance grid (`src/main.rs:39-45, 204-225`) -/

def NUM_INSTANCES_PER_ROW : ℕ := 10

def NUM_INSTANCES : ℕ := NUM_INSTANCES_PER_ROW * NUM_INSTANCES_PER_ROW

noncomputable def INSTANCE_DISPLACEMENT : Vec3 :=
  ⟨(NUM_INSTANCES_PER_ROW : ℝ) * 0.5, 0.0, (NUM_INSTANCES_PER_ROW : ℝ) * 0.5⟩

noncomputable def SPACE_BETWEEN : ℝ := 3.0

structure Instance where
  position : Vec3
  rotation : Rotor3

/-- The body of the instance-grid closure in `State::new` (main.rs:207-222),
at grid indices `z` (outer `flat_map`) and `x` (inner `map`). -/
noncomputable def instanceAt (z x : ℕ) : Instance :=
  let xf : ℝ := SPACE_BETWEEN * ((x : ℝ) - (NUM_INSTANCES_PER_ROW : ℝ) / 2)
  let zf : ℝ := SPACE_BETWEEN * ((z : ℝ) - (NUM_INSTANCES_PER_ROW : ℝ) / 2)
  let position : Vec3 := ⟨xf, 0.0, zf⟩
  let rotation : Rotor3 :=
    if position.mag = 0 then
      Rotor3.from_angle_plane 0.0 Bivec3.unit_xy
    else
      Rotor3.from_angle_plane (Real.pi * 45.0 / 180.0)
        (Bivec3.from_normalized_axis position.normalized)
  ⟨position, rotation⟩

/-- The instance list built in `State::new` (main.rs:205-225). -/
noncomputable def instances : List Instance :=
  (List.range NUM_INSTANCES_PER_ROW).flatMap fun z =>
    (List.range NUM_INSTANCES_PER_ROW).map fun x => instanceAt z x

/-! ## `src/model.rs`

The coordinates the loader carries are embedded as rationals: the loader
never computes with them, so this is faithful and keeps the module
executable. `tobj::load_obj`'s result and `texture::Texture::load` (whose
source file is not part of the repository snapshot; the loader only
propagates its failures) are explicit inputs of `Model.load`; GPU handles
are opaque naturals. -/

/-- The part of `tobj::Mesh` the loader reads. -/
structure ObjMesh where
  positions : List ℚ
  texcoords : List ℚ
  normals : List ℚ
  indices : List ℕ
  material_id : Option ℕ
deriving DecidableEq

/-- The part of `tobj::Model` the loader reads. -/
structure ObjModel where
  name : String
  mesh : ObjMesh
deriving DecidableEq

/-- The part of `tobj::Material` the loader reads. -/
structure ObjMaterial where
  name : String
  diffuse_texture : String
deriving DecidableEq

/-- A loaded `texture::Texture`, opaque to `model.rs`. -/
structure Texture where
  id : ℕ
deriving DecidableEq

/-- The failures `Model::load` can produce: a propagated parse failure, the
`context("Directory has no parent")` error, a propagated texture-load
failure, and (kept distinct from the returned errors) a Rust panic from the
vertex-interleaving loop's slice indexing. -/
inductive LoadErr
  | parse (msg : String)
  | missingData
  | textureLoad (msg : String)
  | panicIndexOutOfBounds
deriving DecidableEq

structure ModelVertex where
  position : ℚ × ℚ × ℚ
  tex_coords : ℚ × ℚ
  normal : ℚ × ℚ × ℚ
deriving DecidableEq

structure Material where
  name : String
  diffuse_texture : Texture
  bind_group : ℕ
deriving DecidableEq

structure Mesh where
  name : String
  vertex_buffer : List ModelVertex
  index_buffer : List ℕ
  num_elements : ℕ
  material : ℕ
deriving DecidableEq

structure Model where
  meshes : List Mesh
  materials : List Material
deriving DecidableEq

/-- The vertex-interleaving loop of `Model::load` (model.rs:110-125):
`none` models the Rust panic of an out-of-bounds slice index. -/
def buildVertices (positions texcoords normals : List ℚ) :
    Option (List ModelVertex) :=
  (List.range (positions.length / 3)).mapM fun i => do
    let px ← positions[i * 3 + 0]?
    let py ← positions[i * 3 + 1]?
    let pz ← positions[i * 3 + 2]?
    let tu ← texcoords[i * 2]?
    let tv ← texcoords[i * 2 + 1]?
    let nx ← normals[i * 3 + 0]?
    let ny ← normals[i * 3 + 1]?
    let nz ← normals[i * 3 + 2]?
    pure ⟨(px, py, pz), (tu, tv), (nx, ny, nz)⟩

/-- A Rust `for` loop that pushes one result per element and early-returns
the first error with `?` (the shape of both loops in `Model::load`). -/
def mapE {α β ε : Type} (f : α → Except ε β) : List α → Except ε (List β)
  | [] => .ok []
  | a :: as =>
    match f a with
    | .error e => .error e
    | .ok b =>
      match mapE f as with
      | .error e => .error e
      | .ok bs => .ok (b :: bs)

/-- One iteration of the material loop of `Model::load` (model.rs:81-106):
load the diffuse texture relative to the containing folder and build the
material's bind group (an opaque handle). -/
def loadMaterial (containing_folder : String)
    (texLoad : String → Except LoadErr Texture) (mat : ObjMaterial) :
    Except LoadErr Material :=
  match texLoad (containing_folder ++ "/" ++ mat.diffuse_texture) with
  | .error e => .error e
  | .ok diffuse_texture => .ok ⟨mat.name, diffuse_texture, 0⟩

/-- One iteration of the mesh loop of `Model::load` (model.rs:109-145). -/
def loadMesh (m : ObjModel) : Except LoadErr Mesh :=
  match buildVertices m.mesh.positions m.mesh.texcoords m.mesh.normals with
  | none => .error .panicIndexOutOfBounds
  | some vertices =>
    .ok ⟨m.name, vertices, m.mesh.indices, m.mesh.indices.length,
      m.mesh.material_id.getD 0⟩

/-- `Model::load` (model.rs:70-148). `objRes` is the result of
`tobj::load_obj(path, true)`, `parent` is `path.parent()`, and `texLoad`
performs `texture::Texture::load` for a given path. -/
def Model.load (objRes : Except LoadErr (List ObjModel × List ObjMaterial))
    (parent : Option String) (texLoad : String → Except LoadErr Texture) :
    Except LoadErr Model :=
  match objRes with
  | .error e => .error e
  | .ok (obj_models, obj_materials) =>
    match parent with
    | none => .error .missingData
    | some containing_folder =>
      match mapE (loadMaterial containing_folder texLoad) obj_materials with
      | .error e => .error e
      | .ok materials =>
        match mapE loadMesh obj_models with
        | .error e => .error e
        | .ok meshes => .ok ⟨meshes, materials⟩

/-- The per-mesh work of `draw_mesh_instanced` (model.rs:200-214): bind the
mesh's buffers and the material's bind group, then issue one indexed draw
over the instance range. (The light bind group the trait also takes is
carried opaquely by the callers and elided.) -/
structure DrawCmd where
  mesh : Mesh
  material : Material
  elements : ℕ × ℕ
  instRange : ℕ × ℕ
  uniforms : ℕ
deriving DecidableEq

def draw_mesh_instanced (mesh : Mesh) (material : Material)
    (instRange : ℕ × ℕ) (uniforms : ℕ) : DrawCmd :=
  ⟨mesh, material, (0, mesh.num_elements), instRange, uniforms⟩

/-- A Rust `for` loop whose body may panic (`none`): the first panic aborts
the whole loop. -/
def mapO {α β : Type} (f : α → Option β) : List α → Option (List β)
  | [] => some []
  | a :: as =>
    match f a with
    | none => none
    | some b =>
      match mapO f as with
      | none => none
      | some bs => some (b :: bs)

/-- The body of the mesh loop of `draw_model_instanced` (model.rs:232-235):
`model.materials[mesh.material]` with Rust's panicking index. -/
def drawOneMesh (model : Model) (instRange : ℕ × ℕ) (uniforms : ℕ)
    (mesh : Mesh) : Option DrawCmd :=
  match model.materials[mesh.material]? with
  | none => none
  | some material => some (draw_mesh_instanced mesh material instRange uniforms)

/-- `draw_model_instanced` (model.rs:225-236): one draw command per mesh;
`none` models the panic of an out-of-range material index. -/
def draw_model_instanced (model : Model) (instRange : ℕ × ℕ) (uniforms : ℕ) :
    Option (List DrawCmd) :=
  mapO (drawOneMesh model instRange uniforms) model.meshes

/-- `draw_model` (model.rs:216-223): sugar for an instance range of one. -/
def draw_model (model : Model) (uniforms : ℕ) : Option (List DrawCmd) :=
  draw_model_instanced model (0, 1) uniforms

/-! ## The orchestrator (`src/main.rs`)

GPU handles (`surface`, `device`, `queue`, pipelines, bind groups,
buffers) are opaque naturals; the swap chain and the depth texture record
what they were created from, which is what `resize` reconfigures. -/

structure SwapChainDescriptor where
  usage : ℕ
  format : ℕ
  width : ℕ
  height : ℕ
  present_mode : ℕ
deriving DecidableEq

/-- `device.create_swap_chain(&surface, &sc_desc)`: a swap chain
configured from the given surface and descriptor. -/
structure SwapChain where
  device : ℕ
  surface : ℕ
  desc : SwapChainDescriptor
deriving DecidableEq

def create_swap_chain (device surface : ℕ) (sc_desc : SwapChainDescriptor) :
    SwapChain :=
  ⟨device, surface, sc_desc⟩

/-- Modelled from the spec: `texture.rs` is not among the repository's
staged sources. Per §4.3 `create_depth_texture` makes a depth texture
"sized to match a given swap-surface description" with a fixed depth
format; only that size and the label are modelled. -/
structure DepthTexture where
  width : ℕ
  height : ℕ
  label : String
deriving DecidableEq

def create_depth_texture (device : ℕ) (sc_desc : SwapChainDescriptor)
    (label : String) : DepthTexture :=
  ⟨sc_desc.width, sc_desc.height, label⟩

/-- The orchestrator `State` (main.rs:71-94); `uniforms` (the cached
view-projection matrix) is carried opaquely, as no claim inspects it. -/
structure State where
  surface : ℕ
  device : ℕ
  queue : ℕ
  sc_desc : SwapChainDescriptor
  swap_chain : SwapChain
  size : ℕ × ℕ
  render_pipeline : ℕ
  diffuse_bind_group : ℕ
  camera : Camera
  camera_controller : CameraController
  uniforms : ℕ
  uniform_buffer : ℕ
  uniform_bind_group : ℕ
  instances : List Instance
  depth_texture : DepthTexture
  obj_model : Model

/-- `State::resize` (main.rs:354-364), statement by statement: the camera
aspect is recomputed from the surface configuration as it stands on entry
(before that configuration is updated to the new size). -/
noncomputable def State.resize (self : State) (new_size : ℕ × ℕ) : State :=
  let self := { self with
    camera := { self.camera with
      aspect := (self.sc_desc.width : ℝ) / (self.sc_desc.height : ℝ) } }
  let self := { self with size := new_size }
  let self := { self with sc_desc := { self.sc_desc with width := new_size.1 } }
  let self := { self with sc_desc := { self.sc_desc with height := new_size.2 } }
  let self := { self with
    swap_chain := create_swap_chain self.device self.surface self.sc_desc }
  let self := { self with
    depth_texture := create_depth_texture self.device self.sc_desc "depth_texture" }
  self

/-- `wgpu::SwapChainError`: the acquisition failures of
`swap_chain.get_current_frame()`. -/
inductive SwapChainError
  | Timeout
  | Outdated
  | Lost
  | OutOfMemory
deriving DecidableEq

/-- The acquired frame's output view, opaque. -/
structure SwapChainFrame where
  view : ℕ
deriving DecidableEq

/-- The one command buffer `State::render` encodes and submits on success:
a render pass clearing color and depth, binding the pipeline and drawing
the model instanced. -/
structure CommandBuffer where
  color_attachment : ℕ
  clear_color : ℚ × ℚ × ℚ × ℚ
  depth_clear : ℚ
  pipeline : ℕ
  draws : List DrawCmd
deriving DecidableEq

/-- `State::render` (main.rs:380-430). `frameRes` is the result of
`self.swap_chain.get_current_frame()`; the returned list holds the command
buffers submitted to the queue, and `none` models a panic while encoding
(the unchecked material index of `draw_model_instanced`). On acquisition
failure the source returns at once: nothing is encoded or submitted and no
field of `self` is touched. -/
noncomputable def State.render (self : State)
    (frameRes : Except SwapChainError SwapChainFrame) :
    Option (State × List CommandBuffer) :=
  match frameRes with
  | .error _ => some (self, [])
  | .ok frame =>
    match draw_model_instanced self.obj_model (0, self.instances.length)
        self.uniform_bind_group with
    | none => none
    | some draws =>
      some (self,
        [{ color_attachment := frame.view
           clear_color := (0.1, 0.2, 0.3, 1.0)
           depth_clear := 1.0
           pipeline := self.render_pipeline
           draws := draws }])

/-- `t` lies strictly inside the open segment from `a` to `b`: the eye
"passes through the target" on a call exactly when the target is such an
interior point of the eye's displacement segment. -/
def StrictlyBetween (t a b : Vec3) : Prop :=
  t ≠ a ∧ t ≠ b ∧ ∃ θ : ℝ, 0 < θ ∧ θ < 1 ∧ t = a + θ • (b - a)

/-! ## Concrete values used by counterexamples and witnesses -/

/-- A texture loader that fails on every path, echoing the path. -/
def texLoadFail : String → Except LoadErr Texture :=
  fun p => .error (.textureLoad p)

/-- A texture loader that succeeds on every path. -/
def texLoadOk : String → Except LoadErr Texture := fun _ => .ok ⟨0⟩

/-- A sub-mesh with no faces at all: empty positions, texcoords, normals
and indices, and no material id. -/
def objModel0 : ObjModel := ⟨"cube", ⟨[], [], [], [], none⟩⟩

/-- The model `Model.load` produces from `[objModel0]` and no materials. -/
def model0 : Model := ⟨[⟨"cube", [], [], 0, 0⟩], []⟩

/-- A controller with the application's speed 0.2 and only the forward
flag pressed. -/
noncomputable def controllerFwd : CameraController :=
  ⟨0.2, false, false, true, false, false, false⟩

/-- A controller with the application's speed 0.2 and the forward and
right flags pressed. -/
noncomputable def controllerFwdRight : CameraController :=
  ⟨0.2, false, false, true, false, false, true⟩

/-- The camera `State::new` constructs (main.rs:175-183). -/
noncomputable def cameraInit : Camera :=
  { eye := ⟨0.0, 5.0, -10.0⟩
    target := ⟨0.0, 0.0, 0.0⟩
    up := ⟨0.0, 1.0, 0.0⟩
    aspect := 800 / 600
    fovy := 45.0
    znear := 0.1
    zfar := 100.0 }

/-- A concrete orchestrator state whose surface configuration is 800×600. -/
noncomputable def state800 : State :=
  { surface := 0
    device := 1
    queue := 2
    sc_desc := ⟨0, 0, 800, 600, 0⟩
    swap_chain := ⟨1, 0, ⟨0, 0, 800, 600, 0⟩⟩
    size := (800, 600)
    render_pipeline := 3
    diffuse_bind_group := 4
    camera := cameraInit
    camera_controller := CameraController.new 0.2
    uniforms := 5
    uniform_buffer := 6
    uniform_bind_group := 7
    instances := []
    depth_texture := ⟨800, 600, "depth_texture"⟩
    obj_model := ⟨[], []⟩ }

/-! ## Claim theorems -/

/-- C1 counterexample: on a state whose surface configuration is 800×600,
`resize (600, 800)` sets the camera aspect ratio to the stale 800/600, not
to the claimed 600/800 = 0.75 — the source (main.rs:355) reads
`self.sc_desc` before updating it. -/
theorem resize_stale_aspect_cex :
    (state800.resize (600, 800)).camera.aspect = (800 : ℝ) / 600 ∧
    (state800.resize (600, 800)).camera.aspect ≠ (600 : ℝ) / 800 := by
  have h : (state800.resize (600, 800)).camera.aspect =
      ((800 : ℕ) : ℝ) / ((600 : ℕ) : ℝ) := rfl
  constructor
  · rw [h]; norm_num
  · rw [h]; norm_num

/-- C1 (amended): for every orchestrator `State`, `resize (w, h)` sets the
camera's aspect ratio to the ratio width/height of the surface
configuration as it was before the call, and updates the stored size, the
surface configuration's width and height, the swap chain and the depth
texture to the new size `(w, h)`. -/
theorem resize_updates_state (s : State) (w h : ℕ) :
    (s.resize (w, h)).camera.aspect =
      (s.sc_desc.width : ℝ) / (s.sc_desc.height : ℝ) ∧
    (s.resize (w, h)).size = (w, h) ∧
    (s.resize (w, h)).sc_desc.width = w ∧
    (s.resize (w, h)).sc_desc.height = h ∧
    (s.resize (w, h)).swap_chain =
      create_swap_chain s.device s.surface
        { s.sc_desc with width := w, height := h } ∧
    (s.resize (w, h)).depth_texture =
      create_depth_texture s.device { s.sc_desc with width := w, height := h }
        "depth_texture" :=
  ⟨rfl, rfl, rfl, rfl, rfl, rfl⟩

/-- C4: when acquiring the next presentable frame fails, `render` returns
immediately: the frame is silently skipped, no command buffer is encoded or
submitted to the queue, and the orchestrator state is unchanged in every
field. -/
theorem render_skips_failed_frame (s : State) (e : SwapChainError) :
    s.render (.error e) = some (s, []) := rfl

/-- C5: `process_events` returns `true` exactly for keyboard input carrying
a recognized virtual key code — W/Up (forward), S/Down (back), A/Left
(left), D/Right (right), Space (up), LShift (down) — and then sets only the
corresponding flag to the key's pressed state; every other event (including
keyboard events with an unrecognized or absent key code) returns `false`
and leaves the controller unchanged. -/
theorem process_events_spec (c : CameraController) :
    (∀ st, c.process_events (.KeyboardInput st (some .Space)) =
      ({ c with is_up_pressed := st == ElementState.Pressed }, true)) ∧
    (∀ st, c.process_events (.KeyboardInput st (some .LShift)) =
      ({ c with is_down_pressed := st == ElementState.Pressed }, true)) ∧
    (∀ st, c.process_events (.KeyboardInput st (some .W)) =
      ({ c with is_forward_pressed := st == ElementState.Pressed }, true)) ∧
    (∀ st, c.process_events (.KeyboardInput st (some .Up)) =
      ({ c with is_forward_pressed := st == ElementState.Pressed }, true)) ∧
    (∀ st, c.process_events (.KeyboardInput st (some .A)) =
      ({ c with is_left_pressed := st == ElementState.Pressed }, true)) ∧
    (∀ st, c.process_events (.KeyboardInput st (some .Left)) =
      ({ c with is_left_pressed := st == ElementState.Pressed }, true)) ∧
    (∀ st, c.process_events (.KeyboardInput st (some .S)) =
      ({ c with is_backward_pressed := st == ElementState.Pressed }, true)) ∧
    (∀ st, c.process_events (.KeyboardInput st (some .Down)) =
      ({ c with is_backward_pressed := st == ElementState.Pressed }, true)) ∧
    (∀ st, c.process_events (.KeyboardInput st (some .D)) =
      ({ c with is_right_pressed := st == ElementState.Pressed }, true)) ∧
    (∀ st, c.process_events (.KeyboardInput st (some .Right)) =
      ({ c with is_right_pressed := st == ElementState.Pressed }, true)) ∧
    (∀ st, c.process_events (.KeyboardInput st (some .Escape)) = (c, false)) ∧
    (∀ st, c.process_events (.KeyboardInput st (some .Other)) = (c, false)) ∧
    (∀ st, c.process_events (.KeyboardInput st none) = (c, false)) ∧
    (c.process_events .CloseRequested = (c, false)) ∧
    (∀ sz, c.process_events (.Resized sz) = (c, false)) ∧
    (∀ sz, c.process_events (.ScaleFactorChanged sz) = (c, false)) ∧
    (∀ p, c.process_events (.Moved p) = (c, false)) ∧
    (c.process_events .OtherEvent = (c, false)) ∧
    (∀ e, (c.process_events e).2 = true ↔
      ∃ st k, e = .KeyboardInput st (some k) ∧
        k ≠ .Escape ∧ k ≠ .Other) ∧
    (∀ e, (c.process_events e).2 = false → (c.process_events e).1 = c) := by
  refine ⟨fun _ => rfl, fun _ => rfl, fun _ => rfl, fun _ => rfl, fun _ => rfl,
    fun _ => rfl, fun _ => rfl, fun _ => rfl, fun _ => rfl, fun _ => rfl,
    fun _ => rfl, fun _ => rfl, fun _ => rfl, rfl, fun _ => rfl, fun _ => rfl,
    fun _ => rfl, rfl, ?_, ?_⟩
  · intro e
    cases e with
    | KeyboardInput st okc =>
      cases okc with
      | none => simp [CameraController.process_events]
      | some k =>
        cases k <;> simp [CameraController.process_events] <;>
          exact ⟨st, _, ⟨rfl, rfl⟩, by simp, by simp⟩
    | CloseRequested => simp [CameraController.process_events]
    | Resized sz => simp [CameraController.process_events]
    | ScaleFactorChanged sz => simp [CameraController.process_events]
    | Moved p => simp [CameraController.process_events]
    | OtherEvent => simp [CameraController.process_events]
  · intro e
    cases e with
    | KeyboardInput st okc =>
      cases okc with
      | none => intro; rfl
      | some k => cases k <;> simp [CameraController.process_events]
    | CloseRequested => intro; rfl
    | Resized sz => intro; rfl
    | ScaleFactorChanged sz => intro; rfl
    | Moved p => intro; rfl
    | OtherEvent => intro; rfl

/-! ### Loader lemmas -/

theorem mapE_ok_length {α β ε : Type} (f : α → Except ε β) :
    ∀ (l : List α) (l' : List β), mapE f l = .ok l' → l'.length = l.length := by
  intro l
  induction l with
  | nil => intro l' h; simp only [mapE, Except.ok.injEq] at h; subst h; rfl
  | cons a as ih =>
    intro l' h
    simp only [mapE] at h
    cases hfa : f a with
    | error e => rw [hfa] at h; simp at h
    | ok b =>
      rw [hfa] at h
      cases hrec : mapE f as with
      | error e => rw [hrec] at h; simp at h
      | ok bs =>
        rw [hrec] at h
        simp only [Except.ok.injEq] at h
        subst h
        simp [ih bs hrec]

theorem mapE_ok_get {α β ε : Type} (f : α → Except ε β) :
    ∀ (l : List α) (l' : List β), mapE f l = .ok l' →
      ∀ (i : ℕ) (a : α), l[i]? = some a →
        ∃ b, l'[i]? = some b ∧ f a = .ok b := by
  intro l
  induction l with
  | nil => intro l' _ i a ha; simp at ha
  | cons x xs ih =>
    intro l' h i a ha
    simp only [mapE] at h
    cases hfx : f x with
    | error e => rw [hfx] at h; simp at h
    | ok b =>
      rw [hfx] at h
      cases hrec : mapE f xs with
      | error e => rw [hrec] at h; simp at h
      | ok bs =>
        rw [hrec] at h
        simp only [Except.ok.injEq] at h
        subst h
        cases i with
        | zero =>
          simp only [List.getElem?_cons_zero, Option.some.injEq] at ha
          subst ha
          exact ⟨b, by simp, hfx⟩
        | succ n =>
          simp only [List.getElem?_cons_succ] at ha ⊢
          exact ih bs hrec n a ha

theorem mapO_isSome {α β : Type} (f : α → Option β) :
    ∀ l : List α, (∀ a ∈ l, (f a).isSome = true) → (mapO f l).isSome = true := by
  intro l
  induction l with
  | nil => intro _; rfl
  | cons x xs ih =>
    intro h
    have hx := h x (List.mem_cons_self x xs)
    simp only [mapO]
    cases hfx : f x with
    | none => rw [hfx] at hx; simp at hx
    | some b =>
      have hxs := ih fun a ha => h a (List.mem_cons_of_mem x ha)
      cases hrec : mapO f xs with
      | none => rw [hrec] at hxs; simp at hxs
      | some bs => simp

theorem mapO_none_of_mem {α β : Type} (f : α → Option β) :
    ∀ (l : List α) (a : α), a ∈ l → f a = none → mapO f l = none := by
  intro l
  induction l with
  | nil => intro a ha; simp at ha
  | cons x xs ih =>
    intro a ha hfa
    simp only [mapO]
    rcases List.mem_cons.mp ha with h | h
    · subst h; rw [hfa]
    · cases hfx : f x with
      | none => rfl
      | some b => rw [ih a h hfa]

theorem mem_of_getElemq {α : Type} {l : List α} {i : ℕ} {a : α}
    (h : l[i]? = some a) : a ∈ l := by
  obtain ⟨hi, rfl⟩ := List.getElem?_eq_some.mp h
  exact List.getElem_mem hi

/-- The mesh loop of `draw_model_instanced` aborts (panics) as soon as one
mesh's material index is out of range of the materials list. -/
theorem draw_none_of_oob (model : Model) (r : ℕ × ℕ) (u : ℕ) (mesh : Mesh)
    (hm : mesh ∈ model.meshes) (hlen : model.materials.length ≤ mesh.material) :
    draw_model_instanced model r u = none := by
  refine mapO_none_of_mem _ model.meshes mesh hm ?_
  simp only [drawOneMesh]
  rw [List.getElem?_eq_none hlen]

/-- `update_camera` only ever rewrites the camera's `eye` field and
returns the controller as it received it. -/
theorem update_camera_shape (c : CameraController) (cam : Camera) :
    ∃ e : Vec3, c.update_camera cam = (c, { cam with eye := e }) := by
  unfold CameraController.update_camera
  dsimp only
  split_ifs <;> exact ⟨_, rfl⟩

/-! ### Camera movement lemmas -/

/-- The strafe branches place the eye at `target - m • v.normalized`; as
long as either `v` is nonzero or `m` is zero, the resulting eye-to-target
distance is `m` itself. -/
theorem strafe_distance (t : Vec3) (m : ℝ) (hm : 0 ≤ m) (v : Vec3)
    (hv : v ≠ 0 ∨ m = 0) :
    Vec3.mag (t - (t - m • v.normalized)) = m := by
  rw [sub_sub_cancel]
  rcases hv with hv | hv
  · rw [Vec3.mag_smul, Vec3.mag_normalized hv, mul_one, abs_of_nonneg hm]
  · subst hv
    rw [zero_smul]
    exact Vec3.mag_eq_zero.mpr rfl

/-- A positive multiple of a nonzero forward vector plus any multiple of
the derived right vector is nonzero: the two are orthogonal. -/
theorem strafe_vec_ne_zero (f u : Vec3) (hf : f ≠ 0) (k s : ℝ) (hk : k ≠ 0) :
    k • f + s • Vec3.cross f.normalized u ≠ 0 := by
  intro h
  set w := Vec3.cross f.normalized u with hw_def
  have hfw : Vec3.dot f w = 0 := Vec3.dot_normalized_cross f u
  have hexp : Vec3.dot (k • f + s • w) (k • f + s • w) =
      k ^ 2 * Vec3.dot f f + 2 * (k * s) * Vec3.dot f w +
        s ^ 2 * Vec3.dot w w := by
    simp [Vec3.dot]
    ring
  rw [h] at hexp
  have h0 : Vec3.dot 0 0 = 0 := by simp [Vec3.dot]
  rw [h0, hfw] at hexp
  have h2 : 0 < k ^ 2 := lt_of_le_of_ne (sq_nonneg k) (Ne.symm (pow_ne_zero 2 hk))
  have h3 : 0 < k ^ 2 * Vec3.dot f f := mul_pos h2 (Vec3.dot_self_pos hf)
  have h4 : 0 ≤ s ^ 2 * Vec3.dot w w :=
    mul_nonneg (sq_nonneg s) (Vec3.dot_self_nonneg w)
  linarith

theorem update_eye_backward_only (c : CameraController) (cam : Camera)
    (hf : c.is_forward_pressed = false) (hb : c.is_backward_pressed = true)
    (hl : c.is_left_pressed = false) (hr : c.is_right_pressed = false) :
    (c.update_camera cam).2.eye =
      cam.eye - c.speed • (cam.target - cam.eye).normalized := by
  simp [CameraController.update_camera, hf, hb, hl, hr]

theorem update_eye_forward_only_far (c : CameraController) (cam : Camera)
    (hf : c.is_forward_pressed = true) (hb : c.is_backward_pressed = false)
    (hl : c.is_left_pressed = false) (hr : c.is_right_pressed = false)
    (hm : (cam.target - cam.eye).mag > c.speed) :
    (c.update_camera cam).2.eye =
      cam.eye + c.speed • (cam.target - cam.eye).normalized := by
  simp [CameraController.update_camera, hf, hb, hl, hr, hm]

theorem update_eye_forward_only_near (c : CameraController) (cam : Camera)
    (hf : c.is_forward_pressed = true) (hb : c.is_backward_pressed = false)
    (hl : c.is_left_pressed = false) (hr : c.is_right_pressed = false)
    (hm : ¬ (cam.target - cam.eye).mag > c.speed) :
    (c.update_camera cam).2.eye = cam.eye := by
  simp [CameraController.update_camera, hf, hb, hl, hr, hm]

/-- Core of the strafe analysis: the strafed eye sits at distance
`mag (t - e)` from the target, where the vector being normalized is the
entry forward vector shortened by the net forward/backward step `δ` plus a
multiple of the derived right vector. -/
theorem strafe_core (t e up_ : Vec3) (s δ c2 : ℝ)
    (hδ : δ = 0 ∨ (δ = s ∧ Vec3.mag (t - e) > s) ∨ (δ = -s ∧ 0 ≤ s)) :
    Vec3.mag (Vec3.mag (t - e) •
      (((t - e) - δ • (t - e).normalized) +
        c2 • Vec3.cross (t - e).normalized up_).normalized) =
      Vec3.mag (t - e) := by
  by_cases hf0 : t - e = 0
  · rw [hf0]
    have hm0 : Vec3.mag (0 : Vec3) = 0 := Vec3.mag_eq_zero.mpr rfl
    rw [hm0, zero_smul, hm0]
  · have hm : 0 < Vec3.mag (t - e) := Vec3.mag_pos hf0
    have hk : 1 - δ * (Vec3.mag (t - e))⁻¹ ≠ 0 := by
      rcases hδ with h | ⟨h, hgt⟩ | ⟨h, hs⟩
      · rw [h]; norm_num
      · rw [h]
        have h1 : s * (Vec3.mag (t - e))⁻¹ < 1 := by
          rw [← div_eq_mul_inv]
          exact (div_lt_one hm).mpr hgt
        exact ne_of_gt (by linarith)
      · rw [h]
        have h1 : 0 ≤ s * (Vec3.mag (t - e))⁻¹ :=
          mul_nonneg hs (inv_nonneg.mpr hm.le)
        have h2 : (1 : ℝ) - -s * (Vec3.mag (t - e))⁻¹ =
            1 + s * (Vec3.mag (t - e))⁻¹ := by ring
        rw [h2]
        exact ne_of_gt (by linarith)
    rw [Vec3.sub_smul_normalized]
    have hne := strafe_vec_ne_zero (t - e) up_ hf0
      (1 - δ * (Vec3.mag (t - e))⁻¹) c2 hk
    rw [Vec3.mag_smul, Vec3.mag_normalized hne, mul_one,
      abs_of_nonneg (Vec3.mag_nonneg (t - e))]

theorem strafe_R0 (t e up_ : Vec3) (s : ℝ) :
    Vec3.mag (Vec3.mag (t - e) •
      ((t - e) + s • Vec3.cross (t - e).normalized up_).normalized) =
      Vec3.mag (t - e) := by
  have h := strafe_core t e up_ s 0 s (Or.inl rfl)
  rw [zero_smul, sub_zero] at h
  exact h

theorem strafe_Rfar (t e up_ : Vec3) (s : ℝ) (hm : Vec3.mag (t - e) > s) :
    Vec3.mag (Vec3.mag (t - e) •
      ((t - (e + s • (t - e).normalized)) +
        s • Vec3.cross (t - e).normalized up_).normalized) =
      Vec3.mag (t - e) := by
  have h := strafe_core t e up_ s s s (Or.inr (Or.inl ⟨rfl, hm⟩))
  have hsub : t - (e + s • (t - e).normalized) =
      (t - e) - s • (t - e).normalized := by abel
  rw [hsub]
  exact h

theorem strafe_Rbwd (t e up_ : Vec3) (s : ℝ) (hs : 0 ≤ s) :
    Vec3.mag (Vec3.mag (t - e) •
      ((t - (e - s • (t - e).normalized)) +
        s • Vec3.cross (t - e).normalized up_).normalized) =
      Vec3.mag (t - e) := by
  have h := strafe_core t e up_ s (-s) s (Or.inr (Or.inr ⟨rfl, hs⟩))
  have hsub : t - (e - s • (t - e).normalized) =
      (t - e) - (-s) • (t - e).normalized := by
    rw [neg_smul]; abel
  rw [hsub]
  exact h

theorem strafe_L0 (t e up_ : Vec3) (s : ℝ) :
    Vec3.mag (Vec3.mag (t - e) •
      ((t - e) - s • Vec3.cross (t - e).normalized up_).normalized) =
      Vec3.mag (t - e) := by
  have h := strafe_core t e up_ s 0 (-s) (Or.inl rfl)
  rw [zero_smul, sub_zero, neg_smul, ← sub_eq_add_neg] at h
  exact h

theorem strafe_Lfar (t e up_ : Vec3) (s : ℝ) (hm : Vec3.mag (t - e) > s) :
    Vec3.mag (Vec3.mag (t - e) •
      ((t - (e + s • (t - e).normalized)) -
        s • Vec3.cross (t - e).normalized up_).normalized) =
      Vec3.mag (t - e) := by
  have h := strafe_core t e up_ s s (-s) (Or.inr (Or.inl ⟨rfl, hm⟩))
  rw [neg_smul, ← sub_eq_add_neg] at h
  have hsub : t - (e + s • (t - e).normalized) =
      (t - e) - s • (t - e).normalized := by abel
  rw [hsub]
  exact h

theorem strafe_Lbwd (t e up_ : Vec3) (s : ℝ) (hs : 0 ≤ s) :
    Vec3.mag (Vec3.mag (t - e) •
      ((t - (e - s • (t - e).normalized)) -
        s • Vec3.cross (t - e).normalized up_).normalized) =
      Vec3.mag (t - e) := by
  have h := strafe_core t e up_ s (-s) (-s) (Or.inr (Or.inr ⟨rfl, hs⟩))
  have hsub : t - (e - s • (t - e).normalized) =
      (t - e) - (-s) • (t - e).normalized := by
    rw [neg_smul]; abel
  rw [hsub]
  have hc2 : (t - e) - (-s) • (t - e).normalized -
      s • Vec3.cross (t - e).normalized up_ =
      (t - e) - (-s) • (t - e).normalized +
        (-s) • Vec3.cross (t - e).normalized up_ := by
    simp only [neg_smul]
    abel
  rw [hc2]
  exact h

/-- With only the backward flag pressed, the eye moves strictly away from
the target: the target is never an interior point of the eye's
displacement segment. -/
theorem backward_only_not_between (c : CameraController) (cam : Camera)
    (hf : c.is_forward_pressed = false) (hb : c.is_backward_pressed = true)
    (hl : c.is_left_pressed = false) (hr : c.is_right_pressed = false)
    (hs : 0 < c.speed) :
    ¬ StrictlyBetween cam.target cam.eye (c.update_camera cam).2.eye := by
  rintro ⟨ht1, _, θ, hθ0, _, heq⟩
  have hfne : cam.target - cam.eye ≠ 0 := sub_ne_zero.mpr ht1
  have hmpos : 0 < Vec3.mag (cam.target - cam.eye) := Vec3.mag_pos hfne
  rw [update_eye_backward_only c cam hf hb hl hr] at heq
  have hdisp : cam.eye - c.speed • (cam.target - cam.eye).normalized - cam.eye =
      -(c.speed • (cam.target - cam.eye).normalized) := by abel
  rw [hdisp] at heq
  have heq2 : cam.target - cam.eye =
      θ • -(c.speed • (cam.target - cam.eye).normalized) :=
    sub_eq_iff_eq_add'.mpr heq
  have hchain : θ • -(c.speed • (cam.target - cam.eye).normalized) =
      -((θ * (c.speed * (Vec3.mag (cam.target - cam.eye))⁻¹)) •
        (cam.target - cam.eye)) := by
    unfold Vec3.normalized
    rw [smul_neg, smul_smul, smul_smul, mul_assoc]
  rw [hchain] at heq2
  have hzero : (1 + θ * (c.speed * (Vec3.mag (cam.target - cam.eye))⁻¹)) •
      (cam.target - cam.eye) = 0 := by
    rw [add_smul, one_smul]
    nth_rewrite 1 [heq2]
    rw [neg_add_cancel]
  rcases Vec3.smul_eq_zero_iff.mp hzero with hc | hc
  · have hpos : 0 < 1 + θ * (c.speed * (Vec3.mag (cam.target - cam.eye))⁻¹) := by
      have h1 : 0 < θ * (c.speed * (Vec3.mag (cam.target - cam.eye))⁻¹) :=
        mul_pos hθ0 (mul_pos hs (inv_pos.mpr hmpos))
      linarith
    exact absurd hc (ne_of_gt hpos)
  · exact hfne hc

/-- C6: a call to `update_camera` can change only the camera's `eye`:
`target`, `up`, `aspect`, `fovy`, `znear` and `zfar` are unchanged, and so
are the controller's `speed` and all six key flags. -/
theorem update_camera_mutates_only_eye (c : CameraController) (cam : Camera) :
    (c.update_camera cam).1 = c ∧
    (c.update_camera cam).2.target = cam.target ∧
    (c.update_camera cam).2.up = cam.up ∧
    (c.update_camera cam).2.aspect = cam.aspect ∧
    (c.update_camera cam).2.fovy = cam.fovy ∧
    (c.update_camera cam).2.znear = cam.znear ∧
    (c.update_camera cam).2.zfar = cam.zfar := by
  obtain ⟨e, he⟩ := update_camera_shape c cam
  rw [he]
  exact ⟨rfl, rfl, rfl, rfl, rfl, rfl, rfl⟩

/-! ### Instance-grid lemmas -/

theorem instanceAt_position (z x : ℕ) :
    (instanceAt z x).position =
      ⟨SPACE_BETWEEN * ((x : ℝ) - (NUM_INSTANCES_PER_ROW : ℝ) / 2), 0.0,
       SPACE_BETWEEN * ((z : ℝ) - (NUM_INSTANCES_PER_ROW : ℝ) / 2)⟩ := rfl

theorem instanceAt_rotation_of_eq_zero (z x : ℕ)
    (h : (instanceAt z x).position = 0) :
    (instanceAt z x).rotation = Rotor3.from_angle_plane 0.0 Bivec3.unit_xy := by
  unfold instanceAt at h ⊢
  dsimp only at h ⊢
  rw [if_pos (Vec3.mag_eq_zero.mpr h)]

theorem instanceAt_rotation_of_ne_zero (z x : ℕ)
    (h : (instanceAt z x).position ≠ 0) :
    (instanceAt z x).rotation =
      Rotor3.from_angle_plane (Real.pi * 45.0 / 180.0)
        (Bivec3.from_normalized_axis (instanceAt z x).position.normalized) := by
  unfold instanceAt at h ⊢
  dsimp only at h ⊢
  rw [if_neg fun h0 => h (Vec3.mag_eq_zero.mp h0)]

theorem instanceAt_five_five_position : (instanceAt 5 5).position = 0 := by
  rw [instanceAt_position]
  unfold SPACE_BETWEEN NUM_INSTANCES_PER_ROW
  ext <;> simp <;> norm_num

/-- C3: the generated instance list has exactly 10×10 = 100 entries; the
entry at grid indices (x = 5, z = 5) — flat index 55 — has zero rotation,
and has it exactly because its computed position is the origin; every
instance's position is `SPACE_BETWEEN`-spaced around the displacement
(rows·0.5, 0, rows·0.5) = (5, 0, 5); and every instance whose position is
not the origin gets the 45° rotation about the axis through its normalized
position. -/
theorem instances_grid_spec :
    instances.length = NUM_INSTANCES ∧
    NUM_INSTANCES = 100 ∧
    instances[55]? = some (instanceAt 5 5) ∧
    ((instanceAt 5 5).rotation.angle = 0 ↔ (instanceAt 5 5).position = 0) ∧
    (∀ z x : ℕ, (instanceAt z x).position =
      SPACE_BETWEEN • (Vec3.mk (x : ℝ) 0 (z : ℝ) - INSTANCE_DISPLACEMENT)) ∧
    (∀ inst ∈ instances, inst.position ≠ 0 →
      inst.rotation = Rotor3.from_angle_plane (Real.pi * 45.0 / 180.0)
        (Bivec3.from_normalized_axis inst.position.normalized)) := by
  refine ⟨rfl, rfl, rfl, ?_, ?_, ?_⟩
  · constructor
    · intro _; exact instanceAt_five_five_position
    · intro h
      rw [instanceAt_rotation_of_eq_zero 5 5 h]
      norm_num [Rotor3.from_angle_plane]
  · intro z x
    rw [instanceAt_position]
    unfold SPACE_BETWEEN INSTANCE_DISPLACEMENT
    ext <;> simp <;> norm_num [NUM_INSTANCES_PER_ROW]
  · intro inst hin hne
    simp only [instances, List.mem_flatMap, List.mem_map, List.mem_range] at hin
    obtain ⟨z, _, x, _, rfl⟩ := hin
    exact instanceAt_rotation_of_ne_zero z x hne

/-- C2 counterexample: the backward branch moves the eye strictly away
from the target (by exactly the speed, 0.2, per call), so with the
backward flag pressed the eye can never pass through the target — there is
no camera and controller state (speed 0.2, backward-only) for which the
target lies strictly inside the eye's displacement segment. -/
theorem backward_never_through_target_cex :
    ¬ ∃ (cam : Camera) (c : CameraController),
      c.speed = 0.2 ∧ c.is_backward_pressed = true ∧
      c.is_forward_pressed = false ∧ c.is_left_pressed = false ∧
      c.is_right_pressed = false ∧
      StrictlyBetween cam.target cam.eye (c.update_camera cam).2.eye := by
  rintro ⟨cam, c, hsp, hb, hf, hl, hr, hbet⟩
  exact backward_only_not_between c cam hf hb hl hr
    (by rw [hsp]; norm_num) hbet

/-- C2 (amended): with speed 0.2 and only the forward flag pressed, one
call to `update_camera` shortens the eye-to-target distance by exactly 0.2
when that distance exceeds 0.2 and leaves the eye unchanged once the
distance is at most 0.2 (no overshoot); with only the backward flag
pressed and the eye not at the target, the eye moves away from the target
along the normalized eye→target direction by 0.2 unconditionally (no
minimum-distance guard), so the distance grows by exactly 0.2 and the eye
never passes through the target. -/
theorem update_camera_forward_backward (c : CameraController) (cam : Camera)
    (hspeed : c.speed = 0.2) :
    (c.is_forward_pressed = true → c.is_backward_pressed = false →
      c.is_left_pressed = false → c.is_right_pressed = false →
      (cam.target - cam.eye).mag > 0.2 →
      (cam.target - (c.update_camera cam).2.eye).mag =
        (cam.target - cam.eye).mag - 0.2) ∧
    (c.is_forward_pressed = true → c.is_backward_pressed = false →
      c.is_left_pressed = false → c.is_right_pressed = false →
      (cam.target - cam.eye).mag ≤ 0.2 →
      (c.update_camera cam).2.eye = cam.eye) ∧
    (c.is_backward_pressed = true → c.is_forward_pressed = false →
      c.is_left_pressed = false → c.is_right_pressed = false →
      cam.eye ≠ cam.target →
      (c.update_camera cam).2.eye =
        cam.eye - (0.2 : ℝ) • (cam.target - cam.eye).normalized ∧
      (cam.target - (c.update_camera cam).2.eye).mag =
        (cam.target - cam.eye).mag + 0.2 ∧
      ¬ StrictlyBetween cam.target cam.eye (c.update_camera cam).2.eye) := by
  refine ⟨?_, ?_, ?_⟩
  · intro hf hb hl hr hm
    have hm' : (cam.target - cam.eye).mag > c.speed := by rw [hspeed]; exact hm
    rw [update_eye_forward_only_far c cam hf hb hl hr hm']
    have h1 : cam.target - (cam.eye + c.speed • (cam.target - cam.eye).normalized) =
        (cam.target - cam.eye) - c.speed • (cam.target - cam.eye).normalized := by
      abel
    rw [h1, Vec3.sub_smul_normalized, Vec3.mag_smul]
    have hmpos : 0 < Vec3.mag (cam.target - cam.eye) := by
      have h2 : (0 : ℝ) < c.speed := by rw [hspeed]; norm_num
      linarith [hm']
    have hlt : c.speed * (Vec3.mag (cam.target - cam.eye))⁻¹ < 1 := by
      rw [← div_eq_mul_inv]
      exact (div_lt_one hmpos).mpr hm'
    rw [abs_of_nonneg
      (by linarith : (0 : ℝ) ≤ 1 - c.speed * (Vec3.mag (cam.target - cam.eye))⁻¹)]
    rw [hspeed]
    field_simp
  · intro hf hb hl hr hm
    have hng : ¬ (cam.target - cam.eye).mag > c.speed := by
      rw [hspeed]; exact not_lt.mpr hm
    exact update_eye_forward_only_near c cam hf hb hl hr hng
  · intro hb hf hl hr hne
    have heye := update_eye_backward_only c cam hf hb hl hr
    have hfne : cam.target - cam.eye ≠ 0 := sub_ne_zero.mpr (Ne.symm hne)
    have hmpos : 0 < Vec3.mag (cam.target - cam.eye) := Vec3.mag_pos hfne
    refine ⟨by rw [heye, hspeed], ?_,
      backward_only_not_between c cam hf hb hl hr (by rw [hspeed]; norm_num)⟩
    rw [heye]
    have h1 : cam.target - (cam.eye - c.speed • (cam.target - cam.eye).normalized) =
        (cam.target - cam.eye) + c.speed • (cam.target - cam.eye).normalized := by
      abel
    rw [h1, Vec3.add_smul_normalized, Vec3.mag_smul]
    have hge : 0 ≤ c.speed * (Vec3.mag (cam.target - cam.eye))⁻¹ := by
      apply mul_nonneg
      · rw [hspeed]; norm_num
      · exact inv_nonneg.mpr hmpos.le
    rw [abs_of_nonneg
      (by linarith : (0 : ℝ) ≤ 1 + c.speed * (Vec3.mag (cam.target - cam.eye))⁻¹)]
    rw [hspeed]
    field_simp

/-- C2 witness: the amended theorem applied to the startup camera and a
forward-pressing controller of speed 0.2. -/
theorem update_camera_forward_backward_witness :
    controllerFwd.speed = 0.2 ∧
    ((controllerFwd.is_forward_pressed = true →
      controllerFwd.is_backward_pressed = false →
      controllerFwd.is_left_pressed = false →
      controllerFwd.is_right_pressed = false →
      (cameraInit.target - cameraInit.eye).mag > 0.2 →
      (cameraInit.target - (controllerFwd.update_camera cameraInit).2.eye).mag =
        (cameraInit.target - cameraInit.eye).mag - 0.2) ∧
    (controllerFwd.is_forward_pressed = true →
      controllerFwd.is_backward_pressed = false →
      controllerFwd.is_left_pressed = false →
      controllerFwd.is_right_pressed = false →
      (cameraInit.target - cameraInit.eye).mag ≤ 0.2 →
      (controllerFwd.update_camera cameraInit).2.eye = cameraInit.eye) ∧
    (controllerFwd.is_backward_pressed = true →
      controllerFwd.is_forward_pressed = false →
      controllerFwd.is_left_pressed = false →
      controllerFwd.is_right_pressed = false →
      cameraInit.eye ≠ cameraInit.target →
      (controllerFwd.update_camera cameraInit).2.eye =
        cameraInit.eye - (0.2 : ℝ) • (cameraInit.target - cameraInit.eye).normalized ∧
      (cameraInit.target - (controllerFwd.update_camera cameraInit).2.eye).mag =
        (cameraInit.target - cameraInit.eye).mag + 0.2 ∧
      ¬ StrictlyBetween cameraInit.target cameraInit.eye
        (controllerFwd.update_camera cameraInit).2.eye)) :=
  ⟨rfl, update_camera_forward_backward controllerFwd cameraInit rfl⟩

/-- C9: whenever a strafe flag (left or right) is set and the speed is
nonnegative, `update_camera` places the eye at a distance from the target
equal to the eye-to-target distance measured at function entry — the
magnitude recomputed after the forward/backward branches is discarded by
the source. In particular, pressing forward together with a strafe key
with entry distance above the speed leaves the distance unchanged,
cancelling the forward step's distance change. -/
theorem update_camera_strafe (c : CameraController) (cam : Camera)
    (hs : 0 ≤ c.speed)
    (hlr : c.is_left_pressed = true ∨ c.is_right_pressed = true) :
    (cam.target - (c.update_camera cam).2.eye).mag =
      (cam.target - cam.eye).mag := by
  by_cases hl : c.is_left_pressed = true
  · cases hrr : c.is_right_pressed <;>
      cases hfb : c.is_forward_pressed <;>
      cases hbb : c.is_backward_pressed <;>
      first
        | (simp [CameraController.update_camera, hl, hrr, hfb, hbb]
           first
             | exact strafe_L0 cam.target cam.eye cam.up c.speed
             | exact strafe_Lbwd cam.target cam.eye cam.up c.speed hs)
        | (by_cases hm : (cam.target - cam.eye).mag > c.speed
           · simp [CameraController.update_camera, hl, hrr, hfb, hbb, hm]
             first
               | exact strafe_L0 cam.target cam.eye cam.up c.speed
               | exact strafe_Lfar cam.target cam.eye cam.up c.speed hm
           · simp [CameraController.update_camera, hl, hrr, hfb, hbb, hm]
             first
               | exact strafe_L0 cam.target cam.eye cam.up c.speed
               | exact strafe_Lbwd cam.target cam.eye cam.up c.speed hs)
  · have hr : c.is_right_pressed = true := hlr.resolve_left hl
    have hl2 : c.is_left_pressed = false := by
      revert hl; cases c.is_left_pressed <;> simp
    cases hfb : c.is_forward_pressed <;>
      cases hbb : c.is_backward_pressed <;>
      first
        | (simp [CameraController.update_camera, hl2, hr, hfb, hbb]
           first
             | exact strafe_R0 cam.target cam.eye cam.up c.speed
             | exact strafe_Rbwd cam.target cam.eye cam.up c.speed hs)
        | (by_cases hm : (cam.target - cam.eye).mag > c.speed
           · simp [CameraController.update_camera, hl2, hr, hfb, hbb, hm]
             first
               | exact strafe_R0 cam.target cam.eye cam.up c.speed
               | exact strafe_Rfar cam.target cam.eye cam.up c.speed hm
           · simp [CameraController.update_camera, hl2, hr, hfb, hbb, hm]
             first
               | exact strafe_R0 cam.target cam.eye cam.up c.speed
               | exact strafe_Rbwd cam.target cam.eye cam.up c.speed hs)

/-- C9 witness: the strafe theorem applied to the startup camera and a
forward+right controller of speed 0.2. -/
theorem update_camera_strafe_witness :
    (0 : ℝ) ≤ controllerFwdRight.speed ∧
    (controllerFwdRight.is_left_pressed = true ∨
      controllerFwdRight.is_right_pressed = true) ∧
    (cameraInit.target -
        (controllerFwdRight.update_camera cameraInit).2.eye).mag =
      (cameraInit.target - cameraInit.eye).mag :=
  ⟨by norm_num [controllerFwdRight], Or.inr rfl,
    update_camera_strafe controllerFwdRight cameraInit
      (by norm_num [controllerFwdRight]) (Or.inr rfl)⟩

/-- C7: `Model::load` fails with the missing-data (`context`) error when
the model path has no parent directory, and propagates an OBJ/MTL parse
failure or a diffuse-texture load failure to the caller; in every such
case no `Model` value is produced. -/
theorem load_failure_paths :
    (∀ (e : LoadErr) (parent : Option String)
        (texLoad : String → Except LoadErr Texture),
      Model.load (.error e) parent texLoad = .error e) ∧
    (∀ (models : List ObjModel) (materials : List ObjMaterial)
        (texLoad : String → Except LoadErr Texture),
      Model.load (.ok (models, materials)) none texLoad = .error .missingData) ∧
    (∀ (models : List ObjModel) (materials : List ObjMaterial) (folder : String)
        (texLoad : String → Except LoadErr Texture) (e : LoadErr),
      mapE (loadMaterial folder texLoad) materials = .error e →
      Model.load (.ok (models, materials)) (some folder) texLoad = .error e) ∧
    (∀ (objRes : Except LoadErr (List ObjModel × List ObjMaterial))
        (parent : Option String) (texLoad : String → Except LoadErr Texture)
        (e : LoadErr),
      Model.load objRes parent texLoad = .error e →
      ∀ m : Model, Model.load objRes parent texLoad ≠ .ok m) := by
  refine ⟨fun _ _ _ => rfl, fun _ _ _ => rfl, ?_, ?_⟩
  · intro models materials folder texLoad e h
    simp [Model.load, h]
  · intro objRes parent texLoad e h m hm
    rw [h] at hm
    exact absurd hm (by simp)

/-- C7 witness: a concrete material list whose diffuse-texture load fails
makes `Model::load` return exactly that failure. -/
theorem load_failure_paths_witness :
    Model.load (.ok ([], [⟨"m", "tex.png"⟩])) (some "res") texLoadFail =
      .error (.textureLoad "res/tex.png") :=
  load_failure_paths.2.2.1 [] [⟨"m", "tex.png"⟩] "res" texLoadFail
    (.textureLoad "res/tex.png") rfl

/-- C8: every successful `Model::load` yields exactly one `Mesh` record per
sub-mesh, in order, whose `num_elements` is that sub-mesh's index count,
whose index buffer holds exactly the sub-mesh's indices (so a 0-face
sub-mesh gives `num_elements = 0` and an empty index buffer, not an
error), and whose material index is the source's material id, defaulting
to 0 when unset. -/
theorem load_meshes_spec (models : List ObjModel) (materials : List ObjMaterial)
    (folder : String) (texLoad : String → Except LoadErr Texture) (model : Model)
    (h : Model.load (.ok (models, materials)) (some folder) texLoad = .ok model) :
    model.meshes.length = models.length ∧
    ∀ (i : ℕ) (m : ObjModel), models[i]? = some m →
      ∃ mesh : Mesh, model.meshes[i]? = some mesh ∧
        mesh.num_elements = m.mesh.indices.length ∧
        mesh.index_buffer = m.mesh.indices ∧
        mesh.material = m.mesh.material_id.getD 0 := by
  simp only [Model.load] at h
  cases hmats : mapE (loadMaterial folder texLoad) materials with
  | error e => rw [hmats] at h; simp at h
  | ok mats =>
    rw [hmats] at h
    cases hms : mapE loadMesh models with
    | error e => rw [hms] at h; simp at h
    | ok meshes =>
      rw [hms] at h
      simp only [Except.ok.injEq] at h
      subst h
      refine ⟨mapE_ok_length loadMesh models meshes hms, ?_⟩
      intro i m hm
      obtain ⟨mesh, hmesh, hload⟩ := mapE_ok_get loadMesh models meshes hms i m hm
      refine ⟨mesh, hmesh, ?_⟩
      simp only [loadMesh] at hload
      cases hbv : buildVertices m.mesh.positions m.mesh.texcoords m.mesh.normals with
      | none => rw [hbv] at hload; simp at hload
      | some vs =>
        rw [hbv] at hload
        simp only [Except.ok.injEq] at hload
        rw [← hload]
        exact ⟨rfl, rfl, rfl⟩

/-- C8 witness: loading one 0-face sub-mesh with no materials succeeds and
the resulting mesh has `num_elements = 0`, an empty index buffer and
material index 0. -/
theorem load_meshes_spec_witness :
    Model.load (.ok ([objModel0], [])) (some "res") texLoadOk = .ok model0 ∧
    (model0.meshes.length = [objModel0].length ∧
     ∀ (i : ℕ) (m : ObjModel), [objModel0][i]? = some m →
       ∃ mesh : Mesh, model0.meshes[i]? = some mesh ∧
         mesh.num_elements = m.mesh.indices.length ∧
         mesh.index_buffer = m.mesh.indices ∧
         mesh.material = m.mesh.material_id.getD 0) :=
  ⟨rfl, load_meshes_spec [objModel0] [] "res" texLoadOk model0 rfl⟩

/-- C10: `draw_model_instanced` (and `draw_model`, its one-instance sugar)
indexes the materials list by each mesh's material index with no bounds
check: it completes exactly when every mesh's material index is in range,
and panics (modelled as `none`) as soon as one is not. Because
`Model::load` defaults an unset material id to 0, a loaded model with at
least one mesh and an empty materials list always panics when drawn,
instead of returning an error. -/
theorem draw_material_bounds :
    (∀ (model : Model) (r : ℕ × ℕ) (u : ℕ),
      (∀ mesh ∈ model.meshes, mesh.material < model.materials.length) →
      (draw_model_instanced model r u).isSome = true) ∧
    (∀ (model : Model) (r : ℕ × ℕ) (u : ℕ) (mesh : Mesh),
      mesh ∈ model.meshes → model.materials.length ≤ mesh.material →
      draw_model_instanced model r u = none) ∧
    (∀ (model : Model) (u : ℕ),
      draw_model model u = draw_model_instanced model (0, 1) u) ∧
    (∀ (models : List ObjModel) (folder : String)
        (texLoad : String → Except LoadErr Texture) (model : Model)
        (r : ℕ × ℕ) (u : ℕ),
      models ≠ [] →
      Model.load (.ok (models, [])) (some folder) texLoad = .ok model →
      draw_model_instanced model r u = none) := by
  refine ⟨?_, ?_, fun _ _ => rfl, ?_⟩
  · intro model r u hin
    refine mapO_isSome _ model.meshes ?_
    intro mesh hmesh
    simp only [drawOneMesh]
    rw [List.getElem?_eq_getElem (hin mesh hmesh)]
    rfl
  · exact draw_none_of_oob
  · intro models folder texLoad model r u hne h
    simp only [Model.load] at h
    cases hms : mapE loadMesh models with
    | error e => rw [hms] at h; simp [mapE] at h
    | ok meshes =>
      rw [hms] at h
      simp only [mapE, Except.ok.injEq] at h
      subst h
      cases models with
      | nil => exact absurd rfl hne
      | cons m rest =>
        obtain ⟨mesh, hmesh, _⟩ :=
          mapE_ok_get loadMesh (m :: rest) meshes hms 0 m (by simp)
        exact draw_none_of_oob _ r u mesh (mem_of_getElemq hmesh)
          (Nat.zero_le _)

/-- C10 witness: the concrete loaded model with one 0-face mesh and no
materials panics when drawn over the full instance range. -/
theorem draw_material_bounds_witness :
    draw_model_instanced model0 (0, 100) 7 = none :=
  draw_material_bounds.2.2.2 [objModel0] "res" texLoadOk model0 (0, 100) 7
    (by simp) rfl

end WebShade
